import Mathlib

/-!
Shallow embedding of the analytics and storage layer of the expense-management
app (sources: `src/app/(tabs)/income.tsx`, `src/app/(tabs)/reports.tsx`,
`src/utils/storage.ts`, record types from `src/unnamed/part_000`).

Modelling conventions:
* JavaScript numbers are modelled as exact rationals (`ℚ`); the literal `0.8`
  is the rational `8/10`.
* A JavaScript `Date` instant is modelled as a calendar structure `DateTime`
  ordered lexicographically by (year, month, day, hour, minute, second, ms);
  for well-formed calendar instants this order coincides with the timestamp
  order that `>=`/`<=` on `Date` objects use, and subtracting
  `7*24*60*60*1000` milliseconds coincides with stepping back 7 calendar days
  (the model has no DST).
* ISO-8601 date strings are modelled abstractly by `DateStr`: a string either
  parses to a `DateTime` or is unparsable (`new Date(s)` yields an Invalid
  Date whose `getTime`/`getMonth` are NaN, so every `===`/`>=`/`<=`
  comparison on it is false).
-/

/-- A calendar instant, as exposed by the JS `Date` accessors
(`getFullYear`, `getMonth` 0–11, `getDate`, ...). -/
structure DateTime where
  year : Int
  month : Nat
  day : Nat
  hour : Nat
  minute : Nat
  second : Nat
  ms : Nat
deriving DecidableEq, Repr

namespace DateTime

/-- Order key: lexicographic packing of the calendar fields. For well-formed
instants this orders exactly like the underlying millisecond timestamp. -/
def key (d : DateTime) : Int :=
  (((((d.year * 12 + d.month) * 32 + d.day) * 24 + d.hour) * 60
      + d.minute) * 60 + d.second) * 1000 + d.ms

/-- The order used by JS `Date` comparisons (`d1 <= d2` compares timestamps). -/
def le (a b : DateTime) : Prop := a.key ≤ b.key

instance : DecidablePred fun p : DateTime × DateTime => le p.1 p.2 :=
  fun _ => Int.decLe _ _

instance (a b : DateTime) : Decidable (le a b) := Int.decLe _ _

/-- Boolean form of `le`, as used inside JS filter predicates. -/
def leb (a b : DateTime) : Bool := a.key ≤ b.key

theorem leb_eq_decide_le (a b : DateTime) : leb a b = decide (le a b) := rfl

end DateTime

/-- Gregorian leap-year rule (what `Date` month arithmetic follows). -/
def isLeap (y : Int) : Bool :=
  (y % 4 == 0 && y % 100 != 0) || y % 400 == 0

/-- Number of days of month `m` (0-based, JS convention) in year `y`. -/
def daysInMonth (y : Int) (m : Nat) : Nat :=
  match m with
  | 0 => 31
  | 1 => if isLeap y then 29 else 28
  | 2 => 31
  | 3 => 30
  | 4 => 31
  | 5 => 30
  | 6 => 31
  | 7 => 31
  | 8 => 30
  | 9 => 31
  | 10 => 30
  | _ => 31

/-- The same instant one calendar day earlier. -/
def prevDay (d : DateTime) : DateTime :=
  if 2 ≤ d.day then { d with day := d.day - 1 }
  else if 1 ≤ d.month then
    { d with month := d.month - 1, day := daysInMonth d.year (d.month - 1) }
  else
    { d with year := d.year - 1, month := 11, day := 31 }

/-- The same instant `n` calendar days earlier; `subDays now 7` embeds
`new Date(now.getTime() - 7 * 24 * 60 * 60 * 1000)` (same time of day,
7 days back; the model has no DST). -/
def subDays (d : DateTime) : Nat → DateTime
  | 0 => d
  | n + 1 => subDays (prevDay d) n

/-- A date-string field of a record: either an ISO-8601 string that the JS
`Date` constructor parses to an instant, or an unparsable string. -/
inductive DateStr where
  | iso (d : DateTime)
  | unparsable (s : String)
deriving DecidableEq, Repr

/-- Result of `new Date(s)` on a date string: the instant, or `none` for an
Invalid Date (every numeric comparison on which is false). -/
def parseDate : DateStr → Option DateTime
  | .iso d => some d
  | .unparsable _ => none

/-- `Expense` record (src/unnamed/part_000). `recurringFreq` is one of
"daily" | "weekly" | "monthly" | "yearly", kept as a string. -/
structure Expense where
  id : String
  amount : ℚ
  category : String
  description : String
  date : DateStr
  paymentMethod : String
  account : String
  location : Option String := none
  receipt : Option String := none
  recurring : Option Bool := none
  recurringFreq : Option String := none
deriving DecidableEq, Repr

/-- `Income` record (src/unnamed/part_000). -/
structure Income where
  id : String
  amount : ℚ
  source : String
  description : String
  date : DateStr
  account : String
  recurring : Option Bool := none
  recurringFreq : Option String := none
deriving DecidableEq, Repr

/-- Budget period: the TS union `'weekly' | 'monthly'`. -/
inductive Period where
  | weekly
  | monthly
deriving DecidableEq, Repr

/-- `Budget` record (src/unnamed/part_000). `spent` is a denormalized cache. -/
structure Budget where
  id : String
  category : String
  amount : ℚ
  period : Period
  spent : ℚ
  alerts : Bool
deriving DecidableEq, Repr

/-- One element of `budgetsWithSpent` (income.tsx): the budget's own fields
spread, with `spent` recomputed and the derived display fields. -/
structure EvaluatedBudget where
  id : String
  category : String
  amount : ℚ
  period : Period
  alerts : Bool
  spent : ℚ
  percentage : ℚ
  isOverBudget : Bool
  isNearLimit : Bool
deriving DecidableEq, Repr

/-- Embedding of `budgetsWithSpent` (income.tsx lines 702–724): for each
budget, filter expenses by category and by "current period" — for a
`monthly` budget the expense's parsed date must have the same `getMonth()`
and `getFullYear()` as the current date (an Invalid Date compares false),
for a `weekly` budget the test is the literal `true` ("Simplified for
demo") — sum their amounts with `reduce`, and spread the budget with the
recomputed `spent` and derived fields. -/
def budgetsWithSpent (budgets : List Budget) (expenses : List Expense)
    (currentDate : DateTime) : List EvaluatedBudget :=
  budgets.map fun budget =>
    let categoryExpenses := expenses.filter fun expense =>
      let isCurrentPeriod : Bool :=
        match budget.period with
        | .monthly =>
          match parseDate expense.date with
          | some d => d.month == currentDate.month && d.year == currentDate.year
          | none => false
        | .weekly => true
      expense.category == budget.category && isCurrentPeriod
    let spent := categoryExpenses.foldl (fun sum e => sum + e.amount) (0 : ℚ)
    { id := budget.id
      category := budget.category
      amount := budget.amount
      period := budget.period
      alerts := budget.alerts
      spent := spent
      percentage := if (0 : ℚ) < budget.amount then spent / budget.amount * 100 else 0
      isOverBudget := budget.amount < spent
      isNearLimit := decide (budget.amount * (8 / 10) < spent)
                     && decide (spent ≤ budget.amount) }

/-- Embedding of the `switch (selectedPeriod)` in `filteredData`
(reports.tsx lines 57–74): `week` is `now` minus 7 days of milliseconds,
`month` is `new Date(y, m, 1)` (first of the current month, 00:00.000),
`year` is `new Date(y, 0, 1)`; any other selector falls into the `default`
branch, which equals the `month` case. -/
def periodStart (selectedPeriod : String) (currentDate : DateTime) : DateTime :=
  if selectedPeriod == "week" then
    subDays currentDate 7
  else if selectedPeriod == "month" then
    { currentDate with day := 1, hour := 0, minute := 0, second := 0, ms := 0 }
  else if selectedPeriod == "year" then
    { currentDate with month := 0, day := 1, hour := 0, minute := 0,
                       second := 0, ms := 0 }
  else
    { currentDate with day := 1, hour := 0, minute := 0, second := 0, ms := 0 }

/-- Result shape of `filteredData` (reports.tsx). -/
structure FilteredData where
  expenses : List Expense
  income : List Income
deriving DecidableEq, Repr

/-- Embedding of `filteredData` (reports.tsx lines 57–86): keep the records
whose parsed date satisfies `date >= startDate && date <= currentDate`; a
record whose date does not parse (Invalid Date) fails both NaN comparisons
and is dropped. -/
def filteredData (selectedPeriod : String) (currentDate : DateTime)
    (expenses : List Expense) (income : List Income) : FilteredData :=
  let startDate := periodStart selectedPeriod currentDate
  { expenses := expenses.filter fun expense =>
      match parseDate expense.date with
      | some d => DateTime.leb startDate d && DateTime.leb d currentDate
      | none => false
    income := income.filter fun incomeItem =>
      match parseDate incomeItem.date with
      | some d => DateTime.leb startDate d && DateTime.leb d currentDate
      | none => false }

/-- The `months` short-name array of `monthlyTrend` (reports.tsx). -/
def monthNames : List String :=
  ["Jan", "Feb", "Mar", "Apr", "May", "Jun",
   "Jul", "Aug", "Sep", "Oct", "Nov", "Dec"]

/-- One element of the intermediate `monthlyData` array (reports.tsx). -/
structure TrendPoint where
  month : String
  expenses : ℚ
  income : ℚ
deriving DecidableEq, Repr

/-- Embedding of the `monthlyData` computation (reports.tsx lines 119–136):
`months.map((month, index) => ...)` — for every of the 12 month indices, sum
the amounts of the expenses (resp. income) whose parsed date has that
`getMonth()` and the current `getFullYear()`; an Invalid Date has NaN month
and matches no index. -/
def monthlyData (expenses : List Expense) (income : List Income)
    (currentDate : DateTime) : List TrendPoint :=
  monthNames.enum.map fun p =>
    let index := p.1
    let month := p.2
    let monthExpenses := (expenses.filter fun expense =>
        match parseDate expense.date with
        | some d => d.month == index && d.year == currentDate.year
        | none => false).foldl (fun sum e => sum + e.amount) (0 : ℚ)
    let monthIncome := (income.filter fun incomeItem =>
        match parseDate incomeItem.date with
        | some d => d.month == index && d.year == currentDate.year
        | none => false).foldl (fun sum i => sum + i.amount) (0 : ℚ)
    { month := month, expenses := monthExpenses, income := monthIncome }

/-- Result shape of `monthlyTrend`: the labels and the two datasets handed
to the chart (colour callbacks omitted — pure presentation). -/
structure MonthlyTrend where
  labels : List String
  expenseData : List ℚ
  incomeData : List ℚ
deriving DecidableEq, Repr

/-- Embedding of the returned value of `monthlyTrend` (reports.tsx lines
138–153): `slice(0, currentMonth + 1)` of the labels and of the per-month
totals — months after the current one are cut off. -/
def monthlyTrend (expenses : List Expense) (income : List Income)
    (currentDate : DateTime) : MonthlyTrend :=
  let md := monthlyData expenses income currentDate
  { labels := monthNames.take (currentDate.month + 1)
    expenseData := (md.take (currentDate.month + 1)).map (·.expenses)
    incomeData := (md.take (currentDate.month + 1)).map (·.income) }

/-- Result shape of `stats` (reports.tsx); `topCategory` is omitted (it
depends only on the chart-coloured `categoryData`, outside the claims). -/
structure Stats where
  totalExpenses : ℚ
  totalIncome : ℚ
  balance : ℚ
  averageExpense : ℚ
  transactionCount : Nat
deriving DecidableEq, Repr

/-- Embedding of `stats` (reports.tsx lines 155–177): totals by `reduce`,
and `averageExpense = length > 0 ? total / length : 0`. -/
def stats (fd : FilteredData) : Stats :=
  let totalExpenses := fd.expenses.foldl (fun sum e => sum + e.amount) (0 : ℚ)
  let totalIncome := fd.income.foldl (fun sum i => sum + i.amount) (0 : ℚ)
  { totalExpenses := totalExpenses
    totalIncome := totalIncome
    balance := totalIncome - totalExpenses
    averageExpense :=
      if 0 < fd.expenses.length then totalExpenses / (fd.expenses.length : ℚ)
      else 0
    transactionCount := fd.expenses.length + fd.income.length }

/-- The budget-form state (income.tsx `formData`): category and period from
pickers, the amount as the raw text-input string, and the alerts toggle. -/
structure BudgetFormData where
  category : String
  amount : String
  period : Period
  alerts : Bool
deriving DecidableEq, Repr

/-- Embedding of `saveBudget` (income.tsx lines 760–802). Parameters that
stand for JS builtins: `pf` is `parseFloat` (external), `newId` is
`Date.now().toString()` (external clock). The function returns the budgets
collection that ends up stored and in state: unchanged when a required
field is missing or when another budget (a different id) already has the
submitted category; otherwise the edited budget is replaced by id, or the
new budget is appended. -/
def saveBudget (pf : String → ℚ) (newId : String) (budgets : List Budget)
    (editingBudget : Option Budget) (formData : BudgetFormData) :
    List Budget :=
  if formData.amount == "" || formData.category == "" then budgets
  else
    let existingBudget := budgets.find? fun budget =>
      budget.category == formData.category &&
        (match editingBudget with
         | some eb => budget.id != eb.id
         | none => true)
    match existingBudget with
    | some _ => budgets
    | none =>
      let budgetData : Budget :=
        { id := (editingBudget.map (·.id)).getD newId
          category := formData.category
          amount := pf formData.amount
          period := formData.period
          alerts := formData.alerts
          spent := (editingBudget.map (·.spent)).getD 0 }
      match editingBudget with
      | some eb => budgets.map fun budget =>
          if budget.id == eb.id then budgetData else budget
      | none => budgets ++ [budgetData]

/-- JSON value AST. `JSON.stringify` / `JSON.parse` round-trip this AST
through text, so the text layer is modelled as the identity on `Json`.
`dateStr` is a JSON string holding a date field, kept abstract because
ISO-8601 text is modelled abstractly (see `DateStr`). -/
inductive Json where
  | null
  | bool (b : Bool)
  | num (q : ℚ)
  | str (s : String)
  | dateStr (d : DateStr)
  | arr (xs : List Json)
  | obj (fields : List (String × Json))

/-- The AsyncStorage key–value store: later writes shadow earlier ones. -/
abbrev Store : Type := List (String × Json)

/-- `AsyncStorage.getItem`: the most recent value written under `key`. -/
def getItem (key : String) (st : Store) : Option Json :=
  (List.lookup key st : Option Json)

/-- `AsyncStorage.setItem`, which may reject: `writeOk = false` models a
storage failure (the promise rejects and nothing is written). -/
def setItem (writeOk : Bool) (key : String) (v : Json) (st : Store) :
    Except String Store :=
  if writeOk then .ok ((key, v) :: st) else .error "storage write failed"

/-- Serialization of an `Expense` by `JSON.stringify`: one JSON object;
an optional field that is `undefined` is omitted from the output. -/
def encodeExpense (e : Expense) : Json :=
  .obj ([("id", .str e.id), ("amount", .num e.amount),
         ("category", .str e.category), ("description", .str e.description),
         ("date", .dateStr e.date), ("paymentMethod", .str e.paymentMethod),
         ("account", .str e.account)]
    ++ (match e.location with | some s => [("location", Json.str s)] | none => [])
    ++ (match e.receipt with | some s => [("receipt", Json.str s)] | none => [])
    ++ (match e.recurring with | some b => [("recurring", Json.bool b)] | none => [])
    ++ (match e.recurringFreq with
        | some s => [("recurringFreq", Json.str s)] | none => []))

/-- Read a JSON string field. -/
def jStr : Json → Option String
  | .str s => some s
  | _ => none

/-- Read a JSON number field. -/
def jNum : Json → Option ℚ
  | .num q => some q
  | _ => none

/-- Read a JSON boolean field. -/
def jBool : Json → Option Bool
  | .bool b => some b
  | _ => none

/-- Read a JSON date-string field. -/
def jDate : Json → Option DateStr
  | .dateStr d => some d
  | _ => none

/-- Deserialization of an `Expense` from its JSON object. The source reads
the parsed JSON back with an unchecked cast; the typed model decodes the
fields, absent optional keys becoming `none`. -/
def decodeExpense : Json → Option Expense
  | .obj kvs => do
    let id ← (kvs.lookup "id").bind jStr
    let amount ← (kvs.lookup "amount").bind jNum
    let category ← (kvs.lookup "category").bind jStr
    let description ← (kvs.lookup "description").bind jStr
    let date ← (kvs.lookup "date").bind jDate
    let paymentMethod ← (kvs.lookup "paymentMethod").bind jStr
    let account ← (kvs.lookup "account").bind jStr
    pure { id := id, amount := amount, category := category,
           description := description, date := date,
           paymentMethod := paymentMethod, account := account,
           location := (kvs.lookup "location").bind jStr,
           receipt := (kvs.lookup "receipt").bind jStr,
           recurring := (kvs.lookup "recurring").bind jBool,
           recurringFreq := (kvs.lookup "recurringFreq").bind jStr }
  | _ => none

/-- `JSON.stringify(expenses)`: a JSON array of expense objects. -/
def encodeExpenseList (es : List Expense) : Json :=
  .arr (es.map encodeExpense)

/-- Decode each element of a JSON array in order. -/
def decodeExpenseArr : List Json → Option (List Expense)
  | [] => some []
  | x :: xs => do
    let e ← decodeExpense x
    let t ← decodeExpenseArr xs
    pure (e :: t)

/-- `JSON.parse` result read back as an `Expense[]`. -/
def decodeExpenseList : Json → Option (List Expense)
  | .arr xs => decodeExpenseArr xs
  | _ => none

/-- Serialization of a `Budget` by `JSON.stringify` (no optional fields;
the period union serializes as its string). -/
def encodeBudget (b : Budget) : Json :=
  .obj [("id", .str b.id), ("category", .str b.category),
        ("amount", .num b.amount),
        ("period", .str (match b.period with
                         | .weekly => "weekly" | .monthly => "monthly")),
        ("spent", .num b.spent), ("alerts", .bool b.alerts)]

/-- Embedding of `saveExpenses` (storage.ts lines 14–20):
`try { await AsyncStorage.setItem('expenses', JSON.stringify(expenses)) }
catch (error) { console.error(...) }` — on a write failure the error is
caught and only logged; the function's promise resolves normally either
way. The second component is the outcome the caller observes. -/
def saveExpenses (writeOk : Bool) (expenses : List Expense) (st : Store) :
    Store × Except String Unit :=
  match setItem writeOk "expenses" (encodeExpenseList expenses) st with
  | .ok st2 => (st2, .ok ())
  | .error _ => (st, .ok ())

/-- Embedding of `getExpenses` (storage.ts lines 22–30): read the stored
string under key `expenses`; when present, `JSON.parse` it (decoded here,
with `[]` where the source's unchecked cast would yield a non-array), and
`[]` when the key is absent or the read fails. -/
def getExpenses (st : Store) : List Expense :=
  match getItem "expenses" st with
  | some data => (decodeExpenseList data).getD []
  | none => []

/-- Embedding of `saveBudgets` (storage.ts lines 52–58): same
catch-and-log pattern as `saveExpenses`, under key `budgets`. -/
def saveBudgets (writeOk : Bool) (budgets : List Budget) (st : Store) :
    Store × Except String Unit :=
  match setItem writeOk "budgets" (.arr (budgets.map encodeBudget)) st with
  | .ok st2 => (st2, .ok ())
  | .error _ => (st, .ok ())

/-! Spec-side definitions, for comparison with the code-derived ones. -/

/-- Follows the spec's words (4.1): the window start is now − 7 days for
`week`, the first calendar day of the current month at 00:00 for `month`,
January 1 of the current year at 00:00 for `year`. -/
def specPeriodStart (selectedPeriod : String) (now : DateTime) : DateTime :=
  if selectedPeriod == "week" then subDays now 7
  else if selectedPeriod == "month" then ⟨now.year, now.month, 1, 0, 0, 0, 0⟩
  else ⟨now.year, 0, 1, 0, 0, 0, 0⟩

/-- Follows the claim's words for the Budget Evaluator: spent is the sum of
the amounts of the expenses whose category equals the budget's and whose
date lies in the `[start, now]` window of the Period Filter, the budget's
period choosing the `week` or `month` window. -/
def specBudgetSpent (b : Budget) (expenses : List Expense) (now : DateTime) :
    ℚ :=
  let start := specPeriodStart
    (match b.period with | .weekly => "week" | .monthly => "month") now
  ((expenses.filter fun e =>
      e.category == b.category &&
      (match parseDate e.date with
       | some d => DateTime.leb start d && DateTime.leb d now
       | none => false)).map (fun e => e.amount)).sum

/-- What the code actually computes as spent (the amended claim): expenses
of the budget's category, restricted — only for a `monthly` budget — to the
same calendar month and year as now; a `weekly` budget counts every
matching-category expense regardless of date. -/
def amendedBudgetSpent (b : Budget) (expenses : List Expense)
    (now : DateTime) : ℚ :=
  ((expenses.filter fun e =>
      e.category == b.category &&
      (match b.period with
       | .monthly =>
         match parseDate e.date with
         | some d => d.month == now.month && d.year == now.year
         | none => false
       | .weekly => true)).map (fun e => e.amount)).sum

/-- A budget with its denormalized `spent` cache cleared; two budget lists
that agree after `eraseSpent` differ at most in their stored caches. -/
def eraseSpent (b : Budget) : Budget := { b with spent := 0 }

/-- Sum of the amounts of the expenses whose date parses to the given month
index of the given year (the per-month entry of the Trend Builder). -/
def monthExpenseTotal (expenses : List Expense) (year : Int) (i : Nat) : ℚ :=
  ((expenses.filter fun e =>
      match parseDate e.date with
      | some d => d.month == i && d.year == year
      | none => false).map (fun e => e.amount)).sum

/-- Sum of the amounts of the income records whose date parses to the given
month index of the given year. -/
def monthIncomeTotal (income : List Income) (year : Int) (i : Nat) : ℚ :=
  ((income.filter fun r =>
      match parseDate r.date with
      | some d => d.month == i && d.year == year
      | none => false).map (fun r => r.amount)).sum

/-! Helper lemmas. -/

/-- A `reduce((s, x) => s + f(x), init)` is `init` plus the sum of the
mapped values. -/
theorem foldl_add_eq_sum {α : Type} (f : α → ℚ) :
    ∀ (l : List α) (init : ℚ),
      l.foldl (fun sum a => sum + f a) init = init + (l.map f).sum := by
  intro l
  induction l with
  | nil => intro init; simp
  | cons a l ih =>
    intro init
    simp only [List.foldl_cons, List.map_cons, List.sum_cons, ih]
    ring

/-- `budgetsWithSpent` written as a map with each output field spelled
out: `spent` is `amendedBudgetSpent`, and the derived fields are computed
from it. -/
theorem budgetsWithSpent_eq_map (budgets : List Budget)
    (expenses : List Expense) (now : DateTime) :
    budgetsWithSpent budgets expenses now = budgets.map fun b =>
      { id := b.id, category := b.category, amount := b.amount,
        period := b.period, alerts := b.alerts,
        spent := amendedBudgetSpent b expenses now,
        percentage :=
          if (0 : ℚ) < b.amount then
            amendedBudgetSpent b expenses now / b.amount * 100
          else 0,
        isOverBudget :=
          decide (b.amount < amendedBudgetSpent b expenses now),
        isNearLimit :=
          decide (b.amount * (8 / 10) < amendedBudgetSpent b expenses now)
          && decide (amendedBudgetSpent b expenses now ≤ b.amount) } := by
  unfold budgetsWithSpent
  apply List.map_congr_left
  intro b _
  cases hp : b.period <;>
    simp [amendedBudgetSpent, hp, foldl_add_eq_sum]

/-! Sample records used by the concrete witnesses and counterexamples. -/

/-- Reference instant 2024-03-15T12:00 (month index 2 = March). -/
def now0 : DateTime := ⟨2024, 2, 15, 12, 0, 0, 0⟩

/-- An expense of 90 in category Food dated 2024-03-10. -/
def food90 : Expense :=
  { id := "e90", amount := 90, category := "Food", description := "groceries",
    date := .iso ⟨2024, 2, 10, 9, 0, 0, 0⟩, paymentMethod := "Cash",
    account := "Main" }

/-- An expense of 50 in category Food dated 2024-01-01 (outside any weekly
or monthly window around `now0`). -/
def foodOld : Expense :=
  { id := "e50", amount := 50, category := "Food", description := "old",
    date := .iso ⟨2024, 0, 1, 10, 0, 0, 0⟩, paymentMethod := "Cash",
    account := "Main" }

/-- A monthly Food budget with limit 100. -/
def foodBudget : Budget :=
  { id := "b1", category := "Food", amount := 100, period := .monthly,
    spent := 0, alerts := true }

/-- A weekly Food budget with limit 100. -/
def foodWeekly : Budget :=
  { id := "b2", category := "Food", amount := 100, period := .weekly,
    spent := 0, alerts := true }

/-- The evaluated Food budget produced from `foodBudget` and `food90`. -/
def ebFood : EvaluatedBudget :=
  { id := "b1", category := "Food", amount := 100, period := .monthly,
    alerts := true, spent := 90, percentage := 90, isOverBudget := false,
    isNearLimit := true }

/-- C3: for every budget of the Budget Evaluator's output with recomputed
spent s, the percentage is (s / amount) * 100 when amount > 0 and 0
otherwise (no division by zero), isOverBudget is s > amount, and
isNearLimit is s > amount * 0.8 and s ≤ amount. -/
theorem budget_derived_fields_correct (budgets : List Budget)
    (expenses : List Expense) (now : DateTime) (eb : EvaluatedBudget)
    (h : eb ∈ budgetsWithSpent budgets expenses now) :
    (eb.percentage =
      if (0 : ℚ) < eb.amount then eb.spent / eb.amount * 100 else 0) ∧
    (eb.isOverBudget = decide (eb.spent > eb.amount)) ∧
    (eb.isNearLimit =
      (decide (eb.spent > eb.amount * (8 / 10))
       && decide (eb.spent ≤ eb.amount))) := by
  rw [budgetsWithSpent_eq_map] at h
  rcases List.mem_map.mp h with ⟨b, _, rfl⟩
  exact ⟨rfl, rfl, rfl⟩

/-- Witness for C3 at the spec's scenario: budget Food 100 monthly, one
Food expense of 90 this month. -/
theorem budget_derived_fields_correct_witness :
    (ebFood.percentage =
      if (0 : ℚ) < ebFood.amount then ebFood.spent / ebFood.amount * 100
      else 0) ∧
    (ebFood.isOverBudget = decide (ebFood.spent > ebFood.amount)) ∧
    (ebFood.isNearLimit =
      (decide (ebFood.spent > ebFood.amount * (8 / 10))
       && decide (ebFood.spent ≤ ebFood.amount))) :=
  budget_derived_fields_correct [foodBudget] [food90] now0 ebFood
    (by rw [show budgetsWithSpent [foodBudget] [food90] now0 = [ebFood] from
          by simp [budgetsWithSpent, foodBudget, food90, now0, ebFood,
                   parseDate]
             norm_num]
        exact List.mem_singleton.mpr rfl)

/-- C5: in the Budget Evaluator's output, isOverBudget and isNearLimit are
never both true. -/
theorem flags_mutually_exclusive (budgets : List Budget)
    (expenses : List Expense) (now : DateTime) (eb : EvaluatedBudget)
    (h : eb ∈ budgetsWithSpent budgets expenses now) :
    ¬(eb.isOverBudget = true ∧ eb.isNearLimit = true) := by
  rw [budgetsWithSpent_eq_map] at h
  rcases List.mem_map.mp h with ⟨b, _, rfl⟩
  rintro ⟨h1, h2⟩
  simp only [decide_eq_true_eq, Bool.and_eq_true] at h1 h2
  exact absurd h1 (not_lt.mpr h2.2)

/-- Witness for C5 at the near-limit scenario. -/
theorem flags_mutually_exclusive_witness :
    ¬(ebFood.isOverBudget = true ∧ ebFood.isNearLimit = true) :=
  flags_mutually_exclusive [foodBudget] [food90] now0 ebFood
    (by rw [show budgetsWithSpent [foodBudget] [food90] now0 = [ebFood] from
          by simp [budgetsWithSpent, foodBudget, food90, now0, ebFood,
                   parseDate]
             norm_num]
        exact List.mem_singleton.mpr rfl)

/-- C8: the average over an empty record collection is 0 (never NaN, never
an exception), and when the count is positive the average is the grand
total divided by the count. -/
theorem average_empty_zero (fd : FilteredData) :
    (fd.expenses = [] → (stats fd).averageExpense = 0) ∧
    (0 < fd.expenses.length →
      (stats fd).averageExpense
        = (fd.expenses.map (fun e => e.amount)).sum
            / (fd.expenses.length : ℚ)) := by
  constructor
  · intro h
    simp [stats, h]
  · intro h
    simp only [stats]
    rw [if_pos h, foldl_add_eq_sum]
    simp

/-- Witness for C8: the empty collection averages to 0, and a one-record
collection averages to its amount over 1. -/
theorem average_empty_zero_witness :
    (stats ⟨[], []⟩).averageExpense = 0 ∧
    (stats ⟨[food90], []⟩).averageExpense
      = ([food90].map (fun e => e.amount)).sum / (([food90].length : Nat) : ℚ) :=
  ⟨(average_empty_zero ⟨[], []⟩).1 rfl,
   (average_empty_zero ⟨[food90], []⟩).2 (by decide)⟩

/-- The evaluation of `budgetsWithSpent` is invariant under changes to the
stored `spent` caches of the input budgets. -/
theorem budgetsWithSpent_eraseSpent_eq (expenses : List Expense)
    (now : DateTime) :
    ∀ (l l' : List Budget), l.map eraseSpent = l'.map eraseSpent →
      budgetsWithSpent l expenses now = budgetsWithSpent l' expenses now := by
  intro l
  induction l with
  | nil =>
    intro l' h
    cases l' with
    | nil => rfl
    | cons b' t' => simp at h
  | cons b t ih =>
    intro l' h
    cases l' with
    | nil => simp at h
    | cons b' t' =>
      simp only [List.map_cons, List.cons.injEq] at h
      obtain ⟨hb, ht⟩ := h
      rw [budgetsWithSpent_eq_map, budgetsWithSpent_eq_map]
      simp only [List.map_cons, List.cons.injEq]
      constructor
      · cases b with
        | mk id category amount period spent alerts =>
        cases b' with
        | mk id' category' amount' period' spent' alerts' =>
        simp only [eraseSpent, Budget.mk.injEq, and_true] at hb
        obtain ⟨h1, h2, h3, h4, -, h5⟩ := hb
        subst h1; subst h2; subst h3; subst h4; subst h5
        rfl
      · have h2 := ih t' ht
        rw [budgetsWithSpent_eq_map, budgetsWithSpent_eq_map] at h2
        exact h2

/-- C1 counterexample: with now = 2024-03-15T12:00, a weekly Food budget
and a single Food expense of 50 dated 2024-01-01, the code recomputes
spent = 50 (a weekly budget counts every matching-category expense, with
no date window), while the Period Filter's week window [now − 7 days, now]
excludes the expense, so the claim's value is 0. -/
theorem budget_spent_window_counterexample :
    (budgetsWithSpent [foodWeekly] [foodOld] now0).map (fun eb => eb.spent)
        = [50]
    ∧ [foodWeekly].map (fun b => specBudgetSpent b [foodOld] now0) = [0]
    ∧ (budgetsWithSpent [foodWeekly] [foodOld] now0).map (fun eb => eb.spent)
        ≠ [foodWeekly].map (fun b => specBudgetSpent b [foodOld] now0) := by
  refine ⟨?_, ?_, ?_⟩
  · simp [budgetsWithSpent, foodWeekly, foodOld, now0, parseDate]
  · simp [specBudgetSpent, specPeriodStart, foodWeekly, foodOld, now0,
          parseDate, subDays, prevDay, daysInMonth, DateTime.leb,
          DateTime.key]
  · simp [budgetsWithSpent, specBudgetSpent, specPeriodStart, foodWeekly,
          foodOld, now0, parseDate, subDays, prevDay, daysInMonth,
          DateTime.leb, DateTime.key]

/-- C1 amended: for every budgets and expenses collection, the Budget
Evaluator recomputes each budget's spent as the sum of the amounts of the
expenses whose category equals the budget's and — only for a monthly
budget — whose parsed date has the same calendar month and year as now; a
weekly budget counts every matching-category expense regardless of date.
The stored spent field has no influence on the result. -/
theorem budgets_spent_amended (budgets budgets' : List Budget)
    (expenses : List Expense) (now : DateTime)
    (h : budgets.map eraseSpent = budgets'.map eraseSpent) :
    (budgetsWithSpent budgets expenses now).map (fun eb => eb.spent)
      = budgets.map (fun b => amendedBudgetSpent b expenses now)
    ∧ budgetsWithSpent budgets expenses now
      = budgetsWithSpent budgets' expenses now := by
  constructor
  · rw [budgetsWithSpent_eq_map, List.map_map]
    rfl
  · exact budgetsWithSpent_eraseSpent_eq expenses now budgets budgets' h

/-- Witness for C1 amended: the monthly Food budget with one in-month
expense; changing the stored spent cache to 77 does not change the output. -/
theorem budgets_spent_amended_witness :
    (budgetsWithSpent [foodBudget] [food90] now0).map (fun eb => eb.spent)
      = [foodBudget].map (fun b => amendedBudgetSpent b [food90] now0)
    ∧ budgetsWithSpent [foodBudget] [food90] now0
      = budgetsWithSpent [{ foodBudget with spent := 77 }] [food90] now0 :=
  budgets_spent_amended [foodBudget] [{ foodBudget with spent := 77 }]
    [food90] now0 (by simp [eraseSpent, foodBudget])

/-- C2 counterexample: on a failing write the caller of `saveExpenses`
(resp. `saveBudgets`) receives the plain success value `ok ()`, identical
to the result of a successful write — the failure is not surfaced. -/
theorem save_failure_silent_counterexample :
    (saveExpenses false [food90] []).2 = Except.ok ()
    ∧ (saveExpenses false [food90] []).2 = (saveExpenses true [food90] []).2
    ∧ (saveBudgets false [foodBudget] []).2 = Except.ok ()
    ∧ (saveBudgets false [foodBudget] []).2
        = (saveBudgets true [foodBudget] []).2 :=
  ⟨rfl, rfl, rfl, rfl⟩

/-- C2 amended: a storage write failure is caught inside the save
operation and only logged: the call resolves with the same void result as
a successful save (no failure signal reaches the caller), and a failed
write leaves the store unchanged. -/
theorem save_failure_logged_amended (writeOk : Bool) (es : List Expense)
    (bs : List Budget) (st : Store) :
    (saveExpenses writeOk es st).2 = Except.ok ()
    ∧ (saveBudgets writeOk bs st).2 = Except.ok ()
    ∧ (saveExpenses false es st).1 = st
    ∧ (saveBudgets false bs st).1 = st := by
  cases writeOk <;> simp [saveExpenses, saveBudgets, setItem]

/-- The filter predicate of the Period Filter holds exactly when the date
parses and the parsed instant lies in the inclusive window [start, now]. -/
theorem window_pred_iff (start now : DateTime) (ds : DateStr) :
    ((match parseDate ds with
      | some d => DateTime.leb start d && DateTime.leb d now
      | none => false) = true)
    ↔ ∃ d, parseDate ds = some d
        ∧ DateTime.le start d ∧ DateTime.le d now := by
  cases ds <;> simp [parseDate, DateTime.leb, DateTime.le]

/-- C4: for each period selector the window start is now − 7 days (week),
the first calendar day of the current month at 00:00 (month), or January 1
of the current year at 00:00 (year); the filtered result is exactly the
subset of input records whose parsed date d satisfies start ≤ d ≤ now,
both bounds inclusive, and no record is mutated (each output is a sublist
of its input). -/
theorem period_filter_window (p : String)
    (hp : p = "week" ∨ p = "month" ∨ p = "year") (now : DateTime)
    (expenses : List Expense) (income : List Income) :
    periodStart p now = specPeriodStart p now
    ∧ (∀ e : Expense, e ∈ (filteredData p now expenses income).expenses ↔
        e ∈ expenses ∧ ∃ d, parseDate e.date = some d
          ∧ DateTime.le (specPeriodStart p now) d ∧ DateTime.le d now)
    ∧ (∀ r : Income, r ∈ (filteredData p now expenses income).income ↔
        r ∈ income ∧ ∃ d, parseDate r.date = some d
          ∧ DateTime.le (specPeriodStart p now) d ∧ DateTime.le d now)
    ∧ (filteredData p now expenses income).expenses.Sublist expenses
    ∧ (filteredData p now expenses income).income.Sublist income := by
  have hstart : periodStart p now = specPeriodStart p now := by
    rcases hp with rfl | rfl | rfl <;> rfl
  refine ⟨hstart, ?_, ?_, ?_, ?_⟩
  · intro e
    simp only [filteredData, List.mem_filter, hstart, window_pred_iff]
  · intro r
    simp only [filteredData, List.mem_filter, hstart, window_pred_iff]
  · exact List.filter_sublist expenses
  · exact List.filter_sublist income

/-- Witness for C4 at the month selector: the filtered list is a sublist
of the input, and the membership characterization holds for `food90`. -/
theorem period_filter_window_witness :
    (filteredData "month" now0 [food90, foodOld] []).expenses.Sublist
        [food90, foodOld]
    ∧ (food90 ∈ (filteredData "month" now0 [food90, foodOld] []).expenses ↔
        food90 ∈ [food90, foodOld] ∧ ∃ d, parseDate food90.date = some d
          ∧ DateTime.le (specPeriodStart "month" now0) d
          ∧ DateTime.le d now0) :=
  ⟨(period_filter_window "month" (Or.inr (Or.inl rfl)) now0
      [food90, foodOld] []).2.2.2.1,
   (period_filter_window "month" (Or.inr (Or.inl rfl)) now0
      [food90, foodOld] []).2.1 food90⟩

/-- C6: a record whose date string does not parse is excluded from the
Period Filter's output, and its presence neither fails the computation nor
changes the remaining output. -/
theorem unparsable_date_excluded (p : String) (now : DateTime)
    (pre post : List Expense) (bad : Expense) (income : List Income)
    (h : parseDate bad.date = none) :
    bad ∉ (filteredData p now (pre ++ bad :: post) income).expenses
    ∧ (filteredData p now (pre ++ bad :: post) income).expenses
        = (filteredData p now (pre ++ post) income).expenses
    ∧ (filteredData p now (pre ++ bad :: post) income).income
        = (filteredData p now (pre ++ post) income).income := by
  refine ⟨?_, ?_, rfl⟩
  · intro hmem
    simp only [filteredData, List.mem_filter] at hmem
    rw [h] at hmem
    exact absurd hmem.2 (by simp)
  · simp only [filteredData]
    rw [List.filter_append, List.filter_append, List.filter_cons, h]
    simp

/-- An expense whose date string the JS Date constructor cannot parse. -/
def badDate : Expense :=
  { id := "x1", amount := 10, category := "Other", description := "junk",
    date := .unparsable "not-a-date", paymentMethod := "Cash",
    account := "Main" }

/-- Witness for C6: the unparsable-dated record is dropped and the rest of
the month filter's output is unchanged. -/
theorem unparsable_date_excluded_witness :
    badDate ∉ (filteredData "month" now0 ([food90] ++ badDate :: [])
        []).expenses
    ∧ (filteredData "month" now0 ([food90] ++ badDate :: []) []).expenses
        = (filteredData "month" now0 ([food90] ++ []) []).expenses
    ∧ (filteredData "month" now0 ([food90] ++ badDate :: []) []).income
        = (filteredData "month" now0 ([food90] ++ []) []).income :=
  unparsable_date_excluded "month" now0 [food90] [] badDate [] rfl

/-- Entry `i` of the intermediate `monthlyData` array: the short month name
together with the month's expense and income totals. -/
theorem monthlyData_getElem (expenses : List Expense) (income : List Income)
    (now : DateTime) (i : Nat) (h : i < 12) :
    ∃ name, (monthlyData expenses income now)[i]?
      = some { month := name,
               expenses := monthExpenseTotal expenses now.year i,
               income := monthIncomeTotal income now.year i } := by
  have hlen : i < monthNames.length := by simpa [monthNames] using h
  refine ⟨monthNames.get ⟨i, hlen⟩, ?_⟩
  simp only [monthlyData, List.getElem?_map, List.getElem?_enum,
             List.getElem?_eq_getElem hlen, Option.map_some']
  rw [foldl_add_eq_sum, foldl_add_eq_sum]
  simp [monthExpenseTotal, monthIncomeTotal, List.get_eq_getElem]

/-- C7: the Trend Builder output has exactly one entry per month from
January (index 0) through now's month inclusive — never an index past the
current month — and entry i is the sum of the amounts of the expenses
(resp. income records) whose date falls in month i of the current year. -/
theorem trend_builder_months (expenses : List Expense) (income : List Income)
    (now : DateTime) (h : now.month ≤ 11) :
    (monthlyTrend expenses income now).expenseData.length = now.month + 1
    ∧ (monthlyTrend expenses income now).incomeData.length = now.month + 1
    ∧ (∀ i : Nat, (monthlyTrend expenses income now).expenseData[i]?
        = if i ≤ now.month then some (monthExpenseTotal expenses now.year i)
          else none)
    ∧ (∀ i : Nat, (monthlyTrend expenses income now).incomeData[i]?
        = if i ≤ now.month then some (monthIncomeTotal income now.year i)
          else none) := by
  have hmd : (monthlyData expenses income now).length = 12 := by
    simp [monthlyData, monthNames]
  refine ⟨?_, ?_, ?_, ?_⟩
  · simp only [monthlyTrend, List.length_map, List.length_take, hmd]
    omega
  · simp only [monthlyTrend, List.length_map, List.length_take, hmd]
    omega
  · intro i
    by_cases hi : i ≤ now.month
    · rw [if_pos hi]
      obtain ⟨name, hname⟩ :=
        monthlyData_getElem expenses income now i (by omega)
      simp only [monthlyTrend, List.getElem?_map,
                 List.getElem?_take_of_lt (by omega : i < now.month + 1),
                 hname, Option.map_some']
    · rw [if_neg hi]
      simp only [monthlyTrend, List.getElem?_map,
                 List.getElem?_take_eq_none (by omega : now.month + 1 ≤ i),
                 Option.map_none']
  · intro i
    by_cases hi : i ≤ now.month
    · rw [if_pos hi]
      obtain ⟨name, hname⟩ :=
        monthlyData_getElem expenses income now i (by omega)
      simp only [monthlyTrend, List.getElem?_map,
                 List.getElem?_take_of_lt (by omega : i < now.month + 1),
                 hname, Option.map_some']
    · rw [if_neg hi]
      simp only [monthlyTrend, List.getElem?_map,
                 List.getElem?_take_eq_none (by omega : now.month + 1 ≤ i),
                 Option.map_none']

/-- Witness for C7 at March 2024: three entries, entry 2 carries March's
expense total, and entry 3 is absent. -/
theorem trend_builder_months_witness :
    (monthlyTrend [food90, foodOld] [] now0).expenseData.length
        = now0.month + 1
    ∧ ((monthlyTrend [food90, foodOld] [] now0).expenseData[2]?
        = if 2 ≤ now0.month then
            some (monthExpenseTotal [food90, foodOld] now0.year 2)
          else none)
    ∧ ((monthlyTrend [food90, foodOld] [] now0).expenseData[3]?
        = if 3 ≤ now0.month then
            some (monthExpenseTotal [food90, foodOld] now0.year 3)
          else none) :=
  ⟨(trend_builder_months [food90, foodOld] [] now0 (by decide)).1,
   (trend_builder_months [food90, foodOld] [] now0 (by decide)).2.2.1 2,
   (trend_builder_months [food90, foodOld] [] now0 (by decide)).2.2.1 3⟩

/-- Decoding inverts encoding on a single expense record, for every
combination of present and absent optional fields. -/
theorem decodeExpense_encodeExpense (e : Expense) :
    decodeExpense (encodeExpense e) = some e := by
  cases e with
  | mk id amount category description date paymentMethod account location
      receipt recurring recurringFreq =>
    cases location <;> cases receipt <;> cases recurring <;>
      cases recurringFreq <;> rfl

/-- Decoding inverts encoding on a whole expense collection. -/
theorem decode_encode_list (es : List Expense) :
    decodeExpenseArr (es.map encodeExpense) = some es := by
  induction es with
  | nil => rfl
  | cons e t ih =>
    simp [decodeExpenseArr, decodeExpense_encodeExpense, ih]

/-- C9: saving a collection to the Record Store and then loading the same
key returns a collection equal by value to the one saved. -/
theorem save_get_roundtrip (es : List Expense) (st : Store) :
    getExpenses (saveExpenses true es st).1 = es := by
  simp [saveExpenses, setItem, getExpenses, getItem, List.lookup,
        encodeExpenseList, decodeExpenseList, decode_encode_list]

/-- Replacing, by id, at most one budget (under id uniqueness) with a
record of category `fc` that no other budget carries preserves category
uniqueness. -/
theorem map_replace_category_nodup (fc ebid : String) (bd : Budget)
    (hbd : bd.category = fc) :
    ∀ (l : List Budget), (l.map Budget.id).Nodup →
      (l.map Budget.category).Nodup →
      (∀ b ∈ l, b.id ≠ ebid → b.category ≠ fc) →
      ((l.map fun b => if b.id == ebid then bd else b).map
          Budget.category).Nodup := by
  intro l
  induction l with
  | nil =>
    intro _ _ _
    simp
  | cons b t ih =>
    intro hids hcats hno
    simp only [List.map_cons, List.nodup_cons] at hids hcats
    obtain ⟨hbid, hids⟩ := hids
    obtain ⟨hbcat, hcats⟩ := hcats
    simp only [List.map_cons]
    by_cases hb : (b.id == ebid) = true
    · rw [if_pos hb]
      have hbeq : b.id = ebid := by simpa using hb
      have htid : ∀ x ∈ t, x.id ≠ ebid := by
        intro x hx hxe
        exact hbid (List.mem_map.mpr ⟨x, hx, by rw [hxe, hbeq]⟩)
      have hmapg : (t.map fun b => if b.id == ebid then bd else b) = t := by
        rw [List.map_congr_left
              (fun x hx => if_neg (by simpa using htid x hx))]
        exact List.map_id' t
      rw [List.nodup_cons, hmapg, hbd]
      constructor
      · intro hmem
        rcases List.mem_map.mp hmem with ⟨x, hx, hxc⟩
        exact hno x (List.mem_cons_of_mem b hx) (htid x hx) hxc
      · exact hcats
    · rw [if_neg hb]
      rw [List.nodup_cons]
      constructor
      · intro hmem
        rcases List.mem_map.mp hmem with ⟨y, hy, hyc⟩
        rcases List.mem_map.mp hy with ⟨x, hx, rfl⟩
        by_cases hxid : (x.id == ebid) = true
        · rw [if_pos hxid] at hyc
          rw [hbd] at hyc
          exact hno b (List.mem_cons_self b t) (by simpa using hb) hyc.symm
        · rw [if_neg hxid] at hyc
          exact hbcat (List.mem_map.mpr ⟨x, hx, hyc⟩)
      · exact ih hids hcats fun x hx => hno x (List.mem_cons_of_mem b hx)

/-- C10: a budget-form submission whose category is already carried by a
budget other than the one being edited leaves the stored budgets
collection unchanged; consequently, under the data model's id-uniqueness
invariant, category uniqueness is preserved by every budget create or
edit. -/
theorem saveBudget_category_unique (pf : String → ℚ) (newId : String)
    (budgets : List Budget) (editingBudget : Option Budget)
    (formData : BudgetFormData) :
    ((∃ b ∈ budgets, b.category = formData.category
        ∧ ∀ eb, editingBudget = some eb → b.id ≠ eb.id) →
      saveBudget pf newId budgets editingBudget formData = budgets)
    ∧ ((budgets.map Budget.id).Nodup →
       (budgets.map Budget.category).Nodup →
      ((saveBudget pf newId budgets editingBudget formData).map
          Budget.category).Nodup) := by
  by_cases hguard :
      (formData.amount == "" || formData.category == "") = true
  · constructor
    · intro _
      simp only [saveBudget]
      rw [if_pos hguard]
    · intro _ hcats
      simp only [saveBudget]
      rw [if_pos hguard]
      exact hcats
  · cases hfind : budgets.find? (fun budget =>
        budget.category == formData.category &&
          (match editingBudget with
           | some eb => budget.id != eb.id
           | none => true)) with
    | some v =>
      constructor
      · intro _
        simp only [saveBudget]
        rw [if_neg hguard, hfind]
      · intro _ hcats
        simp only [saveBudget]
        rw [if_neg hguard, hfind]
        exact hcats
    | none =>
      constructor
      · rintro ⟨b, hb, hcat, hother⟩
        exfalso
        apply List.find?_eq_none.mp hfind b hb
        simp only [Bool.and_eq_true, beq_iff_eq]
        refine ⟨hcat, ?_⟩
        cases editingBudget with
        | none => rfl
        | some eb => simpa using hother eb rfl
      · intro hids hcats
        simp only [saveBudget]
        rw [if_neg hguard, hfind]
        cases editingBudget with
        | none =>
          have hnotin : formData.category ∉ budgets.map Budget.category := by
            intro hmem
            rcases List.mem_map.mp hmem with ⟨b, hb, hc⟩
            apply List.find?_eq_none.mp hfind b hb
            simp [hc]
          rw [List.map_append]
          exact hcats.append (by simp)
            (by simpa [List.disjoint_singleton] using hnotin)
        | some eb =>
          apply map_replace_category_nodup formData.category eb.id _ rfl
            budgets hids hcats
          intro b hb hbid hc
          apply List.find?_eq_none.mp hfind b hb
          simp [hc, hbid]

/-- A second monthly budget, category Travel, for concrete uniqueness
checks. -/
def travelBudget : Budget :=
  { id := "b3", category := "Travel", amount := 200, period := .monthly,
    spent := 0, alerts := true }

/-- Witness for C10: creating a second Food budget is rejected (collection
unchanged), and creating a Gym budget keeps categories unique. -/
theorem saveBudget_category_unique_witness :
    saveBudget (fun _ => 50) "id9" [foodBudget, travelBudget] none
        { category := "Food", amount := "50", period := .monthly,
          alerts := true }
      = [foodBudget, travelBudget]
    ∧ ((saveBudget (fun _ => 50) "id9" [foodBudget, travelBudget] none
        { category := "Gym", amount := "50", period := .monthly,
          alerts := true }).map Budget.category).Nodup :=
  ⟨(saveBudget_category_unique (fun _ => 50) "id9" [foodBudget, travelBudget]
      none { category := "Food", amount := "50", period := .monthly,
             alerts := true }).1
      ⟨foodBudget, List.mem_cons_self foodBudget [travelBudget], rfl,
       fun eb h => nomatch h⟩,
   (saveBudget_category_unique (fun _ => 50) "id9" [foodBudget, travelBudget]
      none { category := "Gym", amount := "50", period := .monthly,
             alerts := true }).2 (by decide) (by decide)⟩
